import Mathlib

/-!
Shallow embedding of the knowledge-augmented conversational turn pipeline of
the urban-education-explorer repository.

The embedded code comes from `src/utils/assistantClient.ts` (the
`AssistantClient` retry / poll / chunking machinery and the `GraphRAGClient`
similarity index) and from `src/components/Chat.tsx` (`handleSubmit`, the turn
orchestrator).  JavaScript strings that undergo character-level operations
(splitting, substring search, replacement) are modelled as `List Char`;
opaque strings (error messages, names of relationship types) stay `String`.
Thrown JavaScript errors are modelled by `JsError`, which records the
`name` and `message` properties of the thrown `Error` object (a plain
`new Error(msg)` has `name = "Error"`).  External calls are modelled by an
environment that fixes the outcome of each call, and the observable behaviour
of a call is a trace of `Event`s together with an outcome.
-/

namespace UEE

/-- A thrown JavaScript `Error` object: its `name` and `message` properties.
`new Error(m)` yields `⟨"Error", m⟩`; an aborted fetch rejects with an error
whose `name` is `"AbortError"`. -/
structure JsError where
  name : String
  message : String
deriving DecidableEq

/-! ### Character-level string helpers (JS `split`, `join`, `includes`, `replace`) -/

/-- JS `text.split(sep)` for a single-character separator: splits on every
occurrence, keeping empty pieces, and yields `[""]` on the empty string. -/
def splitOnCh (sep : Char) : List Char → List (List Char)
  | [] => [[]]
  | c :: cs =>
    match splitOnCh sep cs with
    | [] => [[]]
    | w :: ws => if c = sep then [] :: w :: ws else (c :: w) :: ws

/-- JS `words.join(' ')`: interleave a single space between the pieces. -/
def joinSp : List (List Char) → List Char
  | [] => []
  | [w] => w
  | w :: w' :: ws => w ++ ' ' :: joinSp (w' :: ws)

/-- JS `s.includes(pat)`: substring containment test. -/
def includesSub (pat : List Char) : List Char → Bool
  | [] => pat.isPrefixOf []
  | c :: cs => pat.isPrefixOf (c :: cs) || includesSub pat cs

/-- JS `s.replace(pat, repl)` with string arguments: replace only the first
occurrence of `pat`, or return `s` unchanged if `pat` does not occur. -/
def replaceFirst (pat repl : List Char) : List Char → List Char
  | [] => []
  | c :: cs =>
    if pat.isPrefixOf (c :: cs) then repl ++ (c :: cs).drop pat.length
    else c :: replaceFirst pat repl cs

/-! ### Constants of `AssistantClient` -/

/-- `this.maxRetries` -/
def maxRetries : ℕ := 3

/-- `this.baseDelay` (milliseconds) -/
def baseDelay : ℕ := 2000

/-- `this.timeout` (milliseconds) -/
def timeoutMs : ℕ := 30000

/-! ### Observable events of a `streamMessage` call -/

/-- One observable step of a `streamMessage` call: the four kinds of provider
calls (`messages.create`, `runs.create`, `runs.retrieve`, `messages.list`),
the poll-interval / pacing sleeps, the retry backoff delay, and a yielded
text fragment. -/
inductive Event
  | msgCreate
  | runCreate
  | runRetrieve
  | msgFetch
  | sleep (ms : ℕ)
  | backoff (ms : ℕ)
  | emit (frag : List Char)
deriving DecidableEq

/-! ### The run poll loop (`waitForRunCompletion`) -/

/-- The status reported by one `runs.retrieve` call; `failed` carries
`last_error?.message`. -/
inductive RunStatus
  | completed
  | failed (lastError : Option String)
  | cancelled
  | expired
  | requires_action
  | queued
  | in_progress
deriving DecidableEq

/-- One iteration's worth of environment for the poll loop: the value of
`signal?.aborted`, the value of `Date.now() - startTime` at the deadline
check, and the status returned by `runs.retrieve`. -/
structure PollObs where
  aborted : Bool
  elapsed : ℕ
  status : RunStatus
deriving DecidableEq

/-- JS `x || d` on an optional string: `undefined` and the empty string are
both falsy and fall back to the default. -/
def jsOrElse (s : Option String) (d : String) : String :=
  match s with
  | none => d
  | some v => if v = "" then d else v

/-- `waitForRunCompletion` from `assistantClient.ts`, driven by the list of
per-iteration observations.  Result: the trace of events, and `none` when the
observations run out with the loop still going, `some none` on normal return
(`completed`), `some (some e)` when the loop throws `e`. -/
def waitForRunCompletion : List PollObs → List Event × Option (Option JsError)
  | [] => ([], none)
  | o :: rest =>
    if o.aborted then ([], some (some ⟨"Error", "Request cancelled"⟩))
    else if timeoutMs < o.elapsed then ([], some (some ⟨"Error", "Request timed out"⟩))
    else
      match o.status with
      | .completed => ([.runRetrieve], some none)
      | .failed m => ([.runRetrieve], some (some ⟨"Error", jsOrElse m "Run failed"⟩))
      | .cancelled => ([.runRetrieve], some (some ⟨"Error", "Run was cancelled"⟩))
      | .expired => ([.runRetrieve], some (some ⟨"Error", "Run expired"⟩))
      | .requires_action => ([.runRetrieve], some (some ⟨"Error", "Run requires action"⟩))
      | _ =>
        let (tr, res) := waitForRunCompletion rest
        (.runRetrieve :: .sleep 1000 :: tr, res)

/-! ### Chunked emission of the final text -/

/-- The chunking loop of `streamMessage`: starting from the word list
`text.split(' ')`, repeatedly take the next 10 words, yield them joined with
single spaces plus one trailing space, then sleep 50 ms.  The fuel argument
is the word-list length, which bounds the number of iterations. -/
def chunkLoopAux : ℕ → List (List Char) → List Event
  | 0, _ => []
  | _ + 1, [] => []
  | fuel + 1, w :: ws =>
    .emit (joinSp ((w :: ws).take 10) ++ [' ']) :: .sleep 50 ::
      chunkLoopAux fuel ((w :: ws).drop 10)

/-- The event trace produced by the chunk-emission loop of `streamMessage`
for a given final text. -/
def streamChunksTrace (text : List Char) : List Event :=
  chunkLoopAux (splitOnCh ' ' text).length (splitOnCh ' ' text)

/-- Modelled from the spec: the word groups that §4.4 step 5 describes —
"fixed-size groups of 10 words (final group may be shorter)".  Used to
compare the source's chunking loop against the spec's wording. -/
def specGroupsAux : ℕ → List (List Char) → List (List (List Char))
  | 0, _ => []
  | _ + 1, [] => []
  | fuel + 1, w :: ws => (w :: ws).take 10 :: specGroupsAux fuel ((w :: ws).drop 10)

/-- Modelled from the spec: groups of 10 words of the space-split text. -/
def specGroups (text : List Char) : List (List (List Char)) :=
  specGroupsAux (splitOnCh ' ' text).length (splitOnCh ' ' text)

/-! ### `streamMessage`: one attempt -/

/-- Outcome of the `messages.list` step: the most recent message is an
assistant text message with the given value, or is absent / not from the
assistant, or has a non-text content part. -/
inductive FetchResult
  | ok (text : List Char)
  | noAssistant
  | nonText
deriving DecidableEq

/-- Environment for one attempt of the `try` block of `streamMessage`:
outcome of `messages.create`, outcome of `runs.create`, the poll-loop
observations, and the outcome of the final `messages.list`. -/
structure AttemptEnv where
  createErr : Option JsError
  runErr : Option JsError
  poll : List PollObs
  fetch : FetchResult

/-- The `try` block of `streamMessage`, for one attempt: append the message,
create the run, poll it to completion, fetch the newest message, then emit
the text in paced chunks.  Result: trace of events, and `none` when the
environment runs out mid-poll, `some none` on success, `some (some e)` when
the block throws `e`. -/
def attemptBody (env : AttemptEnv) : List Event × Option (Option JsError) :=
  match env.createErr with
  | some e => ([.msgCreate], some (some e))
  | none =>
    match env.runErr with
    | some e => ([.msgCreate, .runCreate], some (some e))
    | none =>
      let (ptr, pres) := waitForRunCompletion env.poll
      match pres with
      | none => (.msgCreate :: .runCreate :: ptr, none)
      | some (some e) => (.msgCreate :: .runCreate :: ptr, some (some e))
      | some none =>
        match env.fetch with
        | .noAssistant =>
          (.msgCreate :: .runCreate :: ptr ++ [.msgFetch],
           some (some ⟨"Error", "No assistant response found"⟩))
        | .nonText =>
          (.msgCreate :: .runCreate :: ptr ++ [.msgFetch],
           some (some ⟨"Error", "Unexpected message content type"⟩))
        | .ok text =>
          (.msgCreate :: .runCreate :: ptr ++ .msgFetch :: streamChunksTrace text,
           some none)

/-! ### `streamMessage`: catch block, retry by recursion -/

/-- The `catch` block and the retry-by-recursion of `streamMessage`.
`i` is the index of the current attempt (`envs i` is its environment) and
`rc` the current value of the mutable field `this.retryCount`; the returned
`ℕ` is the field's value after the call.  The fuel only bounds the recursion
and is chosen large enough (`maxRetries + 1`) never to run out, because a
recursive call requires `rc < maxRetries` and increments `rc`.

Faithfully modelled quirks of the source:
* the cancellation check compares `error.name` against `"AbortError"`, so the
  poll loop's own `new Error('Request cancelled')` (whose name is `"Error"`)
  does not match it and is retried;
* after the recursive `yield* this.streamMessage(...)` completes
  successfully there is no `return`, so control falls through to
  `throw new Error('An unexpected error occurred')`;
* `this.resetRetryCount()` runs only in the exhaustion branch, never after a
  successful attempt. -/
def streamLoop (envs : ℕ → AttemptEnv) : ℕ → ℕ → ℕ → List Event × Option (Option JsError) × ℕ
  | 0, _, rc => ([], none, rc)
  | fuel + 1, i, rc =>
    let (tr, res) := attemptBody (envs i)
    match res with
    | none => (tr, none, rc)
    | some none => (tr, some none, rc)
    | some (some e) =>
      if e.name = "AbortError" then
        (tr, some (some ⟨"Error", "Request cancelled"⟩), rc)
      else if rc < maxRetries then
        let (tr2, res2, rc2) := streamLoop envs fuel (i + 1) (rc + 1)
        (tr ++ .backoff (baseDelay * 2 ^ rc) :: tr2,
         match res2 with
         | some none => some (some ⟨"Error", "An unexpected error occurred"⟩)
         | r => r,
         rc2)
      else
        (tr, some (some e), 0)

/-- `streamMessage`: the thread-initialization precondition check (outside the
`try`/`catch`), then the retried attempt loop.  `thread` is `this.thread`,
`rc` the entry value of `this.retryCount`. -/
def streamMessage (thread : Option String) (rc : ℕ) (envs : ℕ → AttemptEnv) :
    List Event × Option (Option JsError) × ℕ :=
  match thread with
  | none => ([], some (some ⟨"Error", "Thread not initialized"⟩), rc)
  | some _ => streamLoop envs (maxRetries + 1) 0 rc

/-! ### The turn orchestrator (`handleSubmit` of `Chat.tsx`) -/

/-- A state change applied to the message list during `handleSubmit`, in the
order the code performs them: the user turn is marked delivered, a streamed
fragment is appended to the assistant turn, the knowledge-graph annotation is
attached (together with marking the assistant turn delivered), the assistant
turn is marked failed, or the assistant turn is removed. -/
inductive UIEvent
  | userDelivered
  | append (frag : List Char)
  | attach (nodes : List String)
  | markFailed
  | removeBot
deriving DecidableEq

/-- The `catch` block of `handleSubmit`: an error whose message is
`"Request cancelled"` removes the assistant turn, any other error marks it
failed. -/
def catchHandler (e : JsError) : UIEvent :=
  if e.message = "Request cancelled" then .removeBot else .markFailed

/-- `handleSubmit` of `Chat.tsx`, as the ordered sequence of message-list
updates it performs.  `frags` are the fragments the stream yields before
either finishing (`streamErr = none`) or raising `streamErr = some e`;
`retrieval` is the eventual outcome of the concurrently started
`queryKnowledgeGraph` promise.  The promise is awaited only after the
`for await` loop over the stream has finished, so the attachment of its
result is sequenced after every fragment append; when the stream throws, the
promise is never awaited and its outcome does not enter the result. -/
def handleSubmit (frags : List (List Char)) (streamErr : Option JsError)
    (retrieval : Except JsError (List String)) : List UIEvent :=
  UIEvent.userDelivered ::
    (frags.map UIEvent.append ++
      match streamErr with
      | none =>
        match retrieval with
        | .ok nodes => [UIEvent.attach nodes]
        | .error e => [catchHandler e]
      | some e => [catchHandler e])

/-! ### The similarity index (`GraphRAGClient`) -/

/-- The outcome of a `fetch` call as `loadData` inspects it: the `ok` flag
and the `statusText` used in the error message. -/
structure FetchResp where
  ok : Bool
  statusText : String
deriving DecidableEq

/-- The state `loadData` populates: `nodeEmbeddings` is the parsed
`node_embeddings.json` object as an association list in key-insertion order
(the order `Object.entries` later reproduces), `nodeNames` the newline-split,
empty-line-filtered contents of `node_names.txt`. -/
structure GraphState where
  nodeEmbeddings : List (String × List ℝ)
  nodeNames : List (List Char)

/-- `loadData` of `GraphRAGClient`: fail if either fetch is not ok, otherwise
store both artifacts as-is.  The source performs no cross-validation of the
two artifacts and no dimension check. -/
def loadData (embResp : FetchResp) (embJson : List (String × List ℝ))
    (namesResp : FetchResp) (namesText : List Char) : Except JsError GraphState :=
  if embResp.ok = false then
    .error ⟨"Error", "Failed to load node embeddings: " ++ embResp.statusText⟩
  else if namesResp.ok = false then
    .error ⟨"Error", "Failed to load node names: " ++ namesResp.statusText⟩
  else
    .ok ⟨embJson, (splitOnCh '\n' namesText).filter (fun w => !w.isEmpty)⟩

/-- `cosineSimilarity` of `GraphRAGClient`:
`dot(a,b) / (sqrt (Σ a_i²) * sqrt (Σ b_i²))`, with real arithmetic standing
in for JavaScript numbers. -/
noncomputable def cosineSimilarity (a b : List ℝ) : ℝ :=
  (List.zipWith (fun x y => x * y) a b).foldl (fun s v => s + v) 0 /
    (Real.sqrt (a.foldl (fun s v => s + v * v) 0) *
      Real.sqrt (b.foldl (fun s v => s + v * v) 0))

/-- The `similarities` array built by `queryFaissIndex`:
`Object.entries(this.nodeEmbeddings)` mapped to `(name, similarity)` pairs,
in the stored key order. -/
noncomputable def similarities (st : GraphState) (q : List ℝ) : List (String × ℝ) :=
  st.nodeEmbeddings.map (fun p => (p.1, cosineSimilarity q p.2))

/-- The ordering the comparator `(a, b) => b.similarity - a.similarity`
realises: `x` may come before `y` exactly when `y`'s similarity is not larger.
-/
def simGE (x y : String × ℝ) : Prop := y.2 ≤ x.2

noncomputable instance : DecidableRel simGE :=
  fun x y => inferInstanceAs (Decidable (y.2 ≤ x.2))

instance : IsTotal (String × ℝ) simGE := ⟨fun a b => le_total b.2 a.2⟩

instance : IsTrans (String × ℝ) simGE := ⟨fun _ _ _ h1 h2 => le_trans h2 h1⟩

/-- The `.sort(...)` step of `queryFaissIndex`: JavaScript `Array.sort` is a
stable sort, modelled by insertion sort with the comparator's order. -/
noncomputable def rankedEntries (st : GraphState) (q : List ℝ) : List (String × ℝ) :=
  (similarities st q).insertionSort simGE

/-- `queryFaissIndex` of `GraphRAGClient`: cosine similarities against every
stored embedding, stable-sorted descending, truncated to `k` (`.slice(0,k)`).
-/
noncomputable def queryFaissIndex (st : GraphState) (q : List ℝ) (k : ℕ) :
    List (String × ℝ) :=
  (rankedEntries st q).take k

/-! ### The node enricher (`fetchRelationships`) -/

/-- A typed relationship edge as `fetchRelationships` produces it. -/
structure Neo4jRelationship where
  type : String
  target : List Char
deriving DecidableEq

/-- `fetchRelationships` of `GraphRAGClient`: every node gets
`EXISTS_IN → directory` and `PROVIDED_BY → ipeds`, and a node whose name
contains `"_id"` additionally gets `IDENTIFIES → name.replace('_id', '')`.
A pure function of the name; the source makes no external calls here. -/
def fetchRelationships (nodeName : List Char) : List Neo4jRelationship :=
  let base : List Neo4jRelationship :=
    [⟨"EXISTS_IN", "directory".toList⟩, ⟨"PROVIDED_BY", "ipeds".toList⟩]
  if includesSub "_id".toList nodeName then
    base ++ [⟨"IDENTIFIES", replaceFirst "_id".toList [] nodeName⟩]
  else
    base

/-! ### Concrete environments used to exercise the failing inputs -/

/-- Environment for the cancellation failing input: the first attempt's
message and run are created, the first poll sees `in_progress`, the second
poll sees the signal aborted; every later attempt's `messages.create` is
immediately rejected with an `AbortError` because the signal is already
aborted. -/
def c1Env : ℕ → AttemptEnv := fun i =>
  match i with
  | 0 => ⟨none, none, [⟨false, 0, .in_progress⟩, ⟨true, 1000, .in_progress⟩], .ok []⟩
  | _ => ⟨some ⟨"AbortError", "Request was aborted."⟩, none, [], .ok []⟩

/-- Environment for the retry-then-success failing input: the first two
attempts fail at `messages.create` with a transient error, the third attempt
succeeds end to end with final text `"hello world"`. -/
def c2Env : ℕ → AttemptEnv := fun i =>
  match i with
  | 0 => ⟨some ⟨"Error", "network error"⟩, none, [], .ok []⟩
  | 1 => ⟨some ⟨"Error", "network error"⟩, none, [], .ok []⟩
  | _ => ⟨none, none, [⟨false, 0, .completed⟩], .ok "hello world".toList⟩

/-! ## Helper lemmas -/

theorem splitOnCh_ne_nil (sep : Char) : ∀ l : List Char, splitOnCh sep l ≠ []
  | [] => by simp [splitOnCh]
  | c :: cs => by
    unfold splitOnCh
    cases h : splitOnCh sep cs with
    | nil => simp
    | cons w ws =>
      dsimp only
      split <;> simp

theorem joinSp_splitOnCh : ∀ l : List Char, joinSp (splitOnCh ' ' l) = l
  | [] => rfl
  | c :: cs => by
    have ih := joinSp_splitOnCh cs
    cases h : splitOnCh ' ' cs with
    | nil => exact absurd h (splitOnCh_ne_nil ' ' cs)
    | cons w ws =>
      rw [h] at ih
      by_cases hc : c = ' '
      · subst hc
        simp only [splitOnCh, h, if_pos rfl, joinSp, List.nil_append]
        rw [ih]
      · simp only [splitOnCh, h, if_neg hc]
        cases ws with
        | nil => simp only [joinSp] at ih ⊢; rw [ih]
        | cons w2 ws2 =>
          simp only [joinSp, List.cons_append] at ih ⊢
          rw [ih]

theorem joinSp_append :
    ∀ (l1 l2 : List (List Char)), l1 ≠ [] → l2 ≠ [] →
      joinSp (l1 ++ l2) = joinSp l1 ++ ' ' :: joinSp l2
  | [], _, h1, _ => absurd rfl h1
  | [w], l2, _, h2 => by
    cases l2 with
    | nil => exact absurd rfl h2
    | cons x xs => rfl
  | w :: w' :: l1, l2, _, h2 => by
    have ih := joinSp_append (w' :: l1) l2 (by simp) h2
    simp only [List.cons_append] at ih
    simp only [List.cons_append, joinSp, List.append_eq, ih, List.append_assoc]

theorem specGroupsAux_nil : ∀ fuel, specGroupsAux fuel [] = []
  | 0 => rfl
  | _ + 1 => rfl

theorem chunkLoopAux_eq_specGroupsAux :
    ∀ (fuel : ℕ) (ws : List (List Char)),
      chunkLoopAux fuel ws =
        (specGroupsAux fuel ws).flatMap
          (fun g => [Event.emit (joinSp g ++ [' ']), Event.sleep 50])
  | 0, _ => rfl
  | _ + 1, [] => rfl
  | fuel + 1, w :: ws => by
    simp only [chunkLoopAux, specGroupsAux, List.flatMap_cons,
      chunkLoopAux_eq_specGroupsAux fuel ((w :: ws).drop 10)]
    rfl

theorem specGroupsAux_join :
    ∀ (fuel : ℕ) (ws : List (List Char)), ws.length ≤ fuel →
      (specGroupsAux fuel ws).flatten = ws
  | 0, ws, h => by
    have hnil : ws = [] := List.length_eq_zero.mp (Nat.le_zero.mp h)
    subst hnil; rfl
  | _ + 1, [], _ => rfl
  | fuel + 1, w :: ws, h => by
    simp only [specGroupsAux, List.flatten_cons]
    rw [specGroupsAux_join fuel ((w :: ws).drop 10)
      (by simp only [List.length_drop, List.length_cons] at h ⊢; omega)]
    exact List.take_append_drop 10 (w :: ws)

theorem specGroupsAux_frags_join :
    ∀ (fuel : ℕ) (ws : List (List Char)), ws.length ≤ fuel → ws ≠ [] →
      ((specGroupsAux fuel ws).map (fun g => joinSp g ++ [' '])).flatten =
        joinSp ws ++ [' ']
  | 0, ws, h, hne => by
    exact absurd (List.length_eq_zero.mp (Nat.le_zero.mp h)) hne
  | _ + 1, [], _, hne => absurd rfl hne
  | fuel + 1, w :: ws, h, _ => by
    simp only [specGroupsAux, List.map_cons, List.flatten_cons]
    by_cases hd : (w :: ws).drop 10 = []
    · have hld := List.length_drop 10 (w :: ws)
      rw [hd] at hld
      simp only [List.length_nil] at hld
      have hle : (w :: ws).length ≤ 10 := by omega
      rw [hd, specGroupsAux_nil, List.take_of_length_le hle]
      simp
    · have hlen : ((w :: ws).drop 10).length ≤ fuel := by
        simp only [List.length_drop, List.length_cons] at h ⊢
        omega
      rw [specGroupsAux_frags_join fuel ((w :: ws).drop 10) hlen hd]
      have htake : (w :: ws).take 10 ≠ [] := by simp
      have hsplit := joinSp_append ((w :: ws).take 10) ((w :: ws).drop 10) htake hd
      rw [List.take_append_drop 10 (w :: ws)] at hsplit
      rw [hsplit]
      simp

theorem specGroupsAux_shape :
    ∀ (fuel : ℕ) (ws : List (List Char)) (g : List (List Char)),
      g ∈ specGroupsAux fuel ws → g ≠ [] ∧ g.length ≤ 10
  | 0, _, _, hg => absurd hg (by simp [specGroupsAux])
  | _ + 1, [], _, hg => absurd hg (by simp [specGroupsAux])
  | fuel + 1, w :: ws, g, hg => by
    simp only [specGroupsAux, List.mem_cons] at hg
    cases hg with
    | inl h =>
      subst h
      constructor
      · simp
      · rw [List.length_take]; exact min_le_left _ _
    | inr h => exact specGroupsAux_shape fuel ((w :: ws).drop 10) g h

theorem specGroupsAux_full :
    ∀ (fuel : ℕ) (ws : List (List Char)) (i : ℕ),
      i + 1 < (specGroupsAux fuel ws).length →
      ((specGroupsAux fuel ws).getD i []).length = 10
  | 0, _, _, hi => absurd hi (by simp [specGroupsAux])
  | _ + 1, [], _, hi => absurd hi (by simp [specGroupsAux])
  | fuel + 1, w :: ws, i, hi => by
    simp only [specGroupsAux, List.length_cons] at hi
    cases i with
    | zero =>
      have hne : specGroupsAux fuel ((w :: ws).drop 10) ≠ [] := by
        intro hcon
        rw [hcon] at hi
        simp at hi
      have hd : (w :: ws).drop 10 ≠ [] := by
        intro hcon
        rw [hcon, specGroupsAux_nil] at hne
        exact hne rfl
      have h10 : 10 < (w :: ws).length := by
        by_contra hcon
        exact hd (List.drop_eq_nil_of_le (Nat.le_of_not_lt hcon))
      simp only [specGroupsAux, List.getD_cons_zero, List.length_take]
      omega
    | succ j =>
      simp only [specGroupsAux, List.getD_cons_succ]
      exact specGroupsAux_full fuel ((w :: ws).drop 10) j (by omega)

theorem filter_orderedInsert_eq (c : ℝ) (a : String × ℝ) (ha : a.2 = c) :
    ∀ l : List (String × ℝ),
      (List.orderedInsert simGE a l).filter (fun x => decide (x.2 = c)) =
        a :: l.filter (fun x => decide (x.2 = c))
  | [] => by simp [List.orderedInsert, ha]
  | b :: l => by
    by_cases hr : simGE a b
    · rw [List.orderedInsert, if_pos hr, List.filter_cons_of_pos (by simp [ha])]
    · rw [List.orderedInsert, if_neg hr]
      have hb : b.2 ≠ c := by
        have hlt : a.2 < b.2 := lt_of_not_le hr
        rw [ha] at hlt
        exact ne_of_gt hlt
      rw [List.filter_cons_of_neg (by simp [hb]), filter_orderedInsert_eq c a ha l,
        List.filter_cons_of_neg (by simp [hb])]

theorem filter_orderedInsert_ne (c : ℝ) (a : String × ℝ) (ha : a.2 ≠ c) :
    ∀ l : List (String × ℝ),
      (List.orderedInsert simGE a l).filter (fun x => decide (x.2 = c)) =
        l.filter (fun x => decide (x.2 = c))
  | [] => by simp [List.orderedInsert, ha]
  | b :: l => by
    by_cases hr : simGE a b
    · rw [List.orderedInsert, if_pos hr, List.filter_cons_of_neg (by simp [ha])]
    · rw [List.orderedInsert, if_neg hr]
      by_cases hbc : b.2 = c
      · rw [List.filter_cons_of_pos (by simp [hbc]), filter_orderedInsert_ne c a ha l,
          List.filter_cons_of_pos (by simp [hbc])]
      · rw [List.filter_cons_of_neg (by simp [hbc]), filter_orderedInsert_ne c a ha l,
          List.filter_cons_of_neg (by simp [hbc])]

theorem filter_insertionSort_eq :
    ∀ (l : List (String × ℝ)) (c : ℝ),
      (l.insertionSort simGE).filter (fun x => decide (x.2 = c)) =
        l.filter (fun x => decide (x.2 = c))
  | [], _ => rfl
  | a :: l, c => by
    rw [List.insertionSort]
    by_cases ha : a.2 = c
    · rw [filter_orderedInsert_eq c a ha, filter_insertionSort_eq l c,
        List.filter_cons_of_pos (by simp [ha])]
    · rw [filter_orderedInsert_ne c a ha, filter_insertionSort_eq l c,
        List.filter_cons_of_neg (by simp [ha])]

/-! ## Claim theorems -/

/-- C1 (code bug): when the cancellation signal becomes aborted during the
poll loop, the poll loop throws `new Error('Request cancelled')`, whose
`name` is `"Error"`, so the catch block's `error.name === 'AbortError'` test
misses it: the call enters the retry path, waits the 2000 ms backoff,
increments the retry counter to 1, and issues another `messages.create` call
(which the already-aborted signal rejects) before the cancellation error
finally surfaces — contradicting the claimed immediate, retry-free,
network-call-free surfacing with the counter unchanged. -/
theorem streamMessage_cancel_during_poll :
    streamMessage (some "t") 0 c1Env =
      ([.msgCreate, .runCreate, .runRetrieve, .sleep 1000, .backoff 2000, .msgCreate],
       some (some ⟨"Error", "Request cancelled"⟩), 1) := by decide

/-- C2 (code bug): with two failing attempts then a fully successful third,
exactly 3 attempts occur with backoff delays 2000 ms then 4000 ms and the
successful attempt's fragments are emitted, as claimed; but because the
catch block has no `return` after the recursive `yield*`, the call then
raises `'An unexpected error occurred'` instead of completing successfully,
and the retry counter stays at 2 (it is only ever reset in the exhaustion
branch), not 0. -/
theorem streamMessage_retry_then_success :
    streamMessage (some "t") 0 c2Env =
      ([.msgCreate, .backoff 2000, .msgCreate, .backoff 4000,
        .msgCreate, .runCreate, .runRetrieve, .msgFetch,
        .emit "hello world ".toList, .sleep 50],
       some (some ⟨"Error", "An unexpected error occurred"⟩), 2) := by decide

/-- C3 (confirmed): if four consecutive attempts fail with non-cancellation
errors, exactly 4 attempts are made with 3 backoffs (2000, 4000, 8000 ms)
and no further retries; the call surfaces the last underlying error (the
spec's `RetryExhaustedError` wrapping it), and the retry counter is reset to
0 for future calls. -/
theorem streamMessage_exhaustion (th : String) (envs : ℕ → AttemptEnv)
    (t0 t1 t2 t3 : List Event) (e0 e1 e2 e3 : JsError)
    (h0 : attemptBody (envs 0) = (t0, some (some e0)))
    (h1 : attemptBody (envs 1) = (t1, some (some e1)))
    (h2 : attemptBody (envs 2) = (t2, some (some e2)))
    (h3 : attemptBody (envs 3) = (t3, some (some e3)))
    (n0 : e0.name ≠ "AbortError") (n1 : e1.name ≠ "AbortError")
    (n2 : e2.name ≠ "AbortError") (n3 : e3.name ≠ "AbortError") :
    streamMessage (some th) 0 envs =
      (t0 ++ .backoff 2000 :: (t1 ++ .backoff 4000 :: (t2 ++ .backoff 8000 :: t3)),
       some (some e3), 0) := by
  simp [streamMessage, streamLoop, h0, h1, h2, h3, maxRetries, baseDelay,
    n0, n1, n2, n3]

/-- C3 witness: four attempts all failing at `messages.create` with the same
transient error. -/
theorem streamMessage_exhaustion_witness :
    streamMessage (some "t") 0 (fun _ => ⟨some ⟨"Error", "boom"⟩, none, [], .ok []⟩) =
      ([.msgCreate, .backoff 2000, .msgCreate, .backoff 4000,
        .msgCreate, .backoff 8000, .msgCreate],
       some (some ⟨"Error", "boom"⟩), 0) := by
  have h := streamMessage_exhaustion "t"
    (fun _ => ⟨some ⟨"Error", "boom"⟩, none, [], .ok []⟩)
    [.msgCreate] [.msgCreate] [.msgCreate] [.msgCreate]
    ⟨"Error", "boom"⟩ ⟨"Error", "boom"⟩ ⟨"Error", "boom"⟩ ⟨"Error", "boom"⟩
    rfl rfl rfl rfl (by decide) (by decide) (by decide) (by decide)
  simpa using h

/-- C4 (corrected): the chunk loop emits the space-split words in consecutive
groups of 10 (final group may be shorter), each fragment being the group
joined with single spaces plus one trailing space, and each emission is
followed (not preceded) by the 50 ms pacing delay; concatenating all
fragments reconstructs the original text followed by one extra trailing
space. -/
theorem streamChunks_spec (text : List Char) :
    streamChunksTrace text =
      ((specGroups text).map (fun g => joinSp g ++ [' '])).flatMap
        (fun f => [Event.emit f, Event.sleep 50]) ∧
    ((specGroups text).map (fun g => joinSp g ++ [' '])).flatten = text ++ [' '] ∧
    (specGroups text).flatten = splitOnCh ' ' text ∧
    (∀ g, g ∈ specGroups text → g ≠ [] ∧ g.length ≤ 10) ∧
    (∀ i, i + 1 < (specGroups text).length →
      ((specGroups text).getD i []).length = 10) := by
  refine ⟨?_, ?_, ?_, ?_, ?_⟩
  · rw [streamChunksTrace, specGroups,
      chunkLoopAux_eq_specGroupsAux (splitOnCh ' ' text).length (splitOnCh ' ' text),
      List.flatMap_map]
  · have h := specGroupsAux_frags_join (splitOnCh ' ' text).length
      (splitOnCh ' ' text) le_rfl (splitOnCh_ne_nil ' ' text)
    rw [joinSp_splitOnCh] at h
    exact h
  · exact specGroupsAux_join _ _ le_rfl
  · intro g hg
    exact specGroupsAux_shape _ _ g hg
  · intro i hi
    exact specGroupsAux_full _ _ i hi

/-- C4 witness: the 12-word text `"a b c d e f g h i j k l"` splits into two
groups, the first of which has exactly 10 words. -/
theorem streamChunks_spec_witness :
    0 + 1 < (specGroups "a b c d e f g h i j k l".toList).length ∧
    ((specGroups "a b c d e f g h i j k l".toList).getD 0 []).length = 10 :=
  ⟨by decide,
   (streamChunks_spec "a b c d e f g h i j k l".toList).2.2.2.2 0 (by decide)⟩

/-- C4 counterexample: for the text `"hi"` the single fragment `"hi "` is
emitted first and the 50 ms delay comes after it (so no delay precedes the
emission), and the concatenation of all fragments is `"hi "`, not `"hi"`;
moreover a text with a tab among its words is split on single spaces only:
`"a\tb c d e f g h i j k"` has 10 space-separated words and yields one
group, while splitting on whitespace would give 11 words and two groups. -/
theorem streamChunks_claim_cx :
    streamChunksTrace "hi".toList = [Event.emit "hi ".toList, Event.sleep 50] ∧
    ((specGroups "hi".toList).map (fun g => joinSp g ++ [' '])).flatten =
      "hi ".toList ∧
    "hi ".toList ≠ "hi".toList ∧
    (specGroups "a\tb c d e f g h i j k".toList).length = 1 := by decide

/-- C5 (corrected): `queryFaissIndex` returns `min k N` entries, sorted
non-increasing in similarity, and entries of equal similarity keep the
insertion order of the embeddings mapping (the `Object.entries` order of the
loaded embeddings JSON): filtering the ranked list to any fixed similarity
value gives exactly the corresponding filtering of the unsorted entries
list, in order.  The node-names artifact plays no role in the ordering. -/
theorem queryFaissIndex_spec (st : GraphState) (q : List ℝ) (k : ℕ) :
    (queryFaissIndex st q k).length = min k st.nodeEmbeddings.length ∧
    List.Sorted simGE (queryFaissIndex st q k) ∧
    (∀ c : ℝ, (rankedEntries st q).filter (fun x => decide (x.2 = c)) =
      (similarities st q).filter (fun x => decide (x.2 = c))) := by
  refine ⟨?_, ?_, ?_⟩
  · rw [queryFaissIndex, List.length_take, rankedEntries,
      List.length_insertionSort, similarities, List.length_map]
  · exact List.Pairwise.sublist (List.take_sublist k _)
      (List.sorted_insertionSort simGE _)
  · intro c
    exact filter_insertionSort_eq _ c

/-- C5 counterexample: a state reachable through `loadData` in which the
embeddings mapping lists `"a"` before `"b"` (two identical vectors) while the
node-names artifact lists `b` before `a`; `queryFaissIndex` breaks the tie
in the embeddings order `["a", "b"]`, not in the node-names order
`["b", "a"]` claimed. -/
theorem queryFaissIndex_tie_order_cx :
    loadData ⟨true, ""⟩ [("a", [1]), ("b", [1])] ⟨true, ""⟩ ('b' :: '\n' :: ['a']) =
      .ok ⟨[("a", [1]), ("b", [1])], [['b'], ['a']]⟩ ∧
    (queryFaissIndex ⟨[("a", [1]), ("b", [1])], [['b'], ['a']]⟩ [1] 2).map Prod.fst =
      ["a", "b"] ∧
    ([['b'], ['a']] : List (List Char)).map List.asString = ["b", "a"] ∧
    (["a", "b"] : List String) ≠ ["b", "a"] := by
  refine ⟨rfl, ?_, rfl, by decide⟩
  simp only [queryFaissIndex, rankedEntries, similarities, List.map_cons,
    List.map_nil, List.insertionSort, List.orderedInsert]
  rw [if_pos (show simGE ("a", cosineSimilarity [1] [1])
    ("b", cosineSimilarity [1] [1]) from le_refl _)]
  simp

/-- C6 (confirmed): in the poll loop, `completed` exits successfully;
`failed`, `cancelled`, `expired` and `requires_action` each throw a
state-specific message; `queued` and `in_progress` are re-polled after a
1-second sleep; and once the elapsed wall-clock time exceeds the 30-second
deadline the loop throws the timeout error before any further retrieve
call. -/
theorem waitForRunCompletion_spec (o : PollObs) (rest : List PollObs)
    (hab : o.aborted = false) :
    (o.elapsed ≤ timeoutMs →
      (o.status = .completed →
        waitForRunCompletion (o :: rest) = ([.runRetrieve], some none)) ∧
      (∀ m, o.status = .failed m →
        waitForRunCompletion (o :: rest) =
          ([.runRetrieve], some (some ⟨"Error", jsOrElse m "Run failed"⟩))) ∧
      (o.status = .cancelled →
        waitForRunCompletion (o :: rest) =
          ([.runRetrieve], some (some ⟨"Error", "Run was cancelled"⟩))) ∧
      (o.status = .expired →
        waitForRunCompletion (o :: rest) =
          ([.runRetrieve], some (some ⟨"Error", "Run expired"⟩))) ∧
      (o.status = .requires_action →
        waitForRunCompletion (o :: rest) =
          ([.runRetrieve], some (some ⟨"Error", "Run requires action"⟩))) ∧
      (o.status = .queued ∨ o.status = .in_progress →
        waitForRunCompletion (o :: rest) =
          (.runRetrieve :: .sleep 1000 :: (waitForRunCompletion rest).1,
           (waitForRunCompletion rest).2))) ∧
    (timeoutMs < o.elapsed →
      waitForRunCompletion (o :: rest) = ([], some (some ⟨"Error", "Request timed out"⟩))) := by
  obtain ⟨ab, el, st⟩ := o
  simp only at hab
  subst hab
  constructor
  · intro hel
    have hnl : ¬ timeoutMs < el := not_lt.mpr hel
    refine ⟨?_, ?_, ?_, ?_, ?_, ?_⟩
    · intro hst; subst hst; simp [waitForRunCompletion, hnl]
    · intro m hst; subst hst; simp [waitForRunCompletion, hnl]
    · intro hst; subst hst; simp [waitForRunCompletion, hnl]
    · intro hst; subst hst; simp [waitForRunCompletion, hnl]
    · intro hst; subst hst; simp [waitForRunCompletion, hnl]
    · intro hst
      rcases hw : waitForRunCompletion rest with ⟨tr, res⟩
      rcases hst with hq | hi
      · subst hq; simp [waitForRunCompletion, hnl, hw]
      · subst hi; simp [waitForRunCompletion, hnl, hw]
  · intro hgt
    simp [waitForRunCompletion, hgt]

/-- C6 witness: one transient `in_progress` observation, then an observation
past the 30-second deadline. -/
theorem waitForRunCompletion_spec_witness :
    waitForRunCompletion [⟨false, 0, .in_progress⟩, ⟨false, 31000, .in_progress⟩] =
      ([.runRetrieve, .sleep 1000], some (some ⟨"Error", "Request timed out"⟩)) := by
  have ht := ((waitForRunCompletion_spec ⟨false, 0, .in_progress⟩
    [⟨false, 31000, .in_progress⟩] rfl).1 (by decide)).2.2.2.2.2 (Or.inr rfl)
  have h2 := (waitForRunCompletion_spec ⟨false, 31000, .in_progress⟩ [] rfl).2
    (by decide)
  rw [ht, h2]

/-- C7 (corrected): the knowledge-graph annotation is attached strictly
after every streamed fragment and only when the stream completed without
error and the retrieval succeeded; when the stream fails its outcome does
not depend on the retrieval result (the retrieval outcome is discarded);
a non-cancellation stream failure marks the turn failed, but a cancellation
failure removes the assistant turn instead of marking it failed. -/
theorem handleSubmit_spec (frags : List (List Char)) (streamErr : Option JsError)
    (retrieval : Except JsError (List String)) :
    (∀ nodes, streamErr = none → retrieval = .ok nodes →
      handleSubmit frags streamErr retrieval =
        .userDelivered :: (frags.map UIEvent.append ++ [.attach nodes])) ∧
    (∀ e, streamErr = some e →
      (∀ r1 r2, handleSubmit frags (some e) r1 = handleSubmit frags (some e) r2) ∧
      (e.message ≠ "Request cancelled" →
        handleSubmit frags streamErr retrieval =
          .userDelivered :: (frags.map UIEvent.append ++ [.markFailed]))) ∧
    (∀ nodes, UIEvent.attach nodes ∈ handleSubmit frags streamErr retrieval →
      streamErr = none ∧ retrieval = .ok nodes) := by
  refine ⟨?_, ?_, ?_⟩
  · intro nodes hs hr
    subst hs; subst hr
    rfl
  · intro e hs
    subst hs
    refine ⟨fun r1 r2 => rfl, ?_⟩
    intro hm
    simp [handleSubmit, catchHandler, hm]
  · intro nodes hmem
    cases streamErr with
    | some e =>
      exfalso
      simp only [handleSubmit, catchHandler, List.mem_cons, List.mem_append,
        List.mem_map] at hmem
      rcases hmem with h | h
      · exact absurd h (by simp)
      · rcases h with ⟨a, _, h⟩ | h
        · exact absurd h (by simp)
        · revert h
          split <;> simp
    | none =>
      cases retrieval with
      | ok ns =>
        simp only [handleSubmit, List.mem_cons, List.mem_append,
          List.mem_map] at hmem
        rcases hmem with h | h
        · exact absurd h (by simp)
        · rcases h with ⟨a, _, h⟩ | h
          · exact absurd h (by simp)
          · simp only [List.mem_singleton, List.mem_cons, List.not_mem_nil,
              or_false, UIEvent.attach.injEq] at h
            exact ⟨rfl, by rw [h]⟩
      | error e =>
        exfalso
        simp only [handleSubmit, catchHandler, List.mem_cons, List.mem_append,
          List.mem_map] at hmem
        rcases hmem with h | h
        · exact absurd h (by simp)
        · rcases h with ⟨a, _, h⟩ | h
          · exact absurd h (by simp)
          · revert h
            split <;> simp

/-- C7 witness: a successful stream of two fragments with a successful
retrieval attaches the annotation as the final update. -/
theorem handleSubmit_spec_witness :
    handleSubmit [['h'], ['i']] none (.ok ["admit_rate"]) =
      .userDelivered ::
        ([['h'], ['i']].map UIEvent.append ++ [.attach ["admit_rate"]]) :=
  (handleSubmit_spec [['h'], ['i']] none (.ok ["admit_rate"])).1 ["admit_rate"] rfl rfl

/-- C7 counterexample: when the stream fails with the cancellation error the
assistant turn is removed, not marked failed, so "the turn is marked failed"
does not hold for this stream failure. -/
theorem handleSubmit_cancel_cx :
    handleSubmit [['h']] (some ⟨"Error", "Request cancelled"⟩) (.ok ["n"]) =
      [.userDelivered, .append ['h'], .removeBot] ∧
    UIEvent.markFailed ∉
      handleSubmit [['h']] (some ⟨"Error", "Request cancelled"⟩) (.ok ["n"]) := by
  decide

/-- C8 (corrected): `loadData` performs no consistency validation at all —
it fails only when fetching either artifact fails, and whenever both fetches
are ok it succeeds, storing the embeddings mapping and the newline-split,
empty-line-filtered names list exactly as given, whether or not their key
sets agree or the vector dimensions are consistent. -/
theorem loadData_spec (embResp : FetchResp) (embJson : List (String × List ℝ))
    (namesResp : FetchResp) (namesText : List Char) :
    (embResp.ok = true → namesResp.ok = true →
      loadData embResp embJson namesResp namesText =
        .ok ⟨embJson, (splitOnCh '\n' namesText).filter (fun w => !w.isEmpty)⟩) ∧
    (embResp.ok = false →
      loadData embResp embJson namesResp namesText =
        .error ⟨"Error", "Failed to load node embeddings: " ++ embResp.statusText⟩) ∧
    (embResp.ok = true → namesResp.ok = false →
      loadData embResp embJson namesResp namesText =
        .error ⟨"Error", "Failed to load node names: " ++ namesResp.statusText⟩) := by
  refine ⟨?_, ?_, ?_⟩
  · intro h1 h2
    simp [loadData, h1, h2]
  · intro h1
    simp [loadData, h1]
  · intro h1 h2
    simp [loadData, h1, h2]

/-- C8 witness: both fetches succeed, so the mismatched artifacts are stored
as-is. -/
theorem loadData_spec_witness :
    loadData ⟨true, ""⟩ [("a", [1, 0])] ⟨true, ""⟩ ('b' :: '\n' :: ['c']) =
      .ok ⟨[("a", [1, 0])],
        (splitOnCh '\n' ('b' :: '\n' :: ['c'])).filter (fun w => !w.isEmpty)⟩ :=
  (loadData_spec ⟨true, ""⟩ [("a", [1, 0])] ⟨true, ""⟩ ('b' :: '\n' :: ['c'])).1 rfl rfl

/-- C8 counterexample: the embeddings mapping has key set `{a}` while the
names list is `[b, c]`, yet `loadData` succeeds — no `DataLoadError`, no
bijection. -/
theorem loadData_mismatch_cx :
    loadData ⟨true, ""⟩ [("a", [1, 0])] ⟨true, ""⟩ ('b' :: '\n' :: ['c']) =
      .ok ⟨[("a", [1, 0])], [['b'], ['c']]⟩ ∧
    [("a", ([1, 0] : List ℝ))].map Prod.fst = ["a"] ∧
    ([['b'], ['c']] : List (List Char)).map List.asString = ["b", "c"] ∧
    (["a"] : List String) ≠ ["b", "c"] :=
  ⟨rfl, rfl, rfl, by decide⟩

/-- C9 (confirmed): `fetchRelationships "parent_ed_id"` yields exactly the
two universal relationships (`EXISTS_IN → directory`, `PROVIDED_BY → ipeds`)
plus `IDENTIFIES → parent_ed`; the model is a pure function of the name, so
the result is identical on every invocation with no external calls. -/
theorem fetchRelationships_parent_ed_id :
    fetchRelationships "parent_ed_id".toList =
      [⟨"EXISTS_IN", "directory".toList⟩, ⟨"PROVIDED_BY", "ipeds".toList⟩,
       ⟨"IDENTIFIES", "parent_ed".toList⟩] := by decide

/-- C10 (confirmed): a `streamMessage` call with no thread fails with
`'Thread not initialized'` before the `try` block: the event trace is empty
(no network calls), no retry or backoff occurs, and the retry counter is
unchanged, whatever its value and whatever the environment. -/
theorem streamMessage_no_thread (rc : ℕ) (envs : ℕ → AttemptEnv) :
    streamMessage none rc envs =
      ([], some (some ⟨"Error", "Thread not initialized"⟩), rc) := rfl

end UEE
